import Mathlib

/-!
Shallow embedding of `src/ai/enhance.py` (the AI-enhancement pipeline of
daily-arXiv-ai-enhanced) and proofs about it.

The Python program works on JSON records (dicts).  We model JSON values with
an inductive type, a record (Python dict with string keys) as an association
list in insertion order, and the external collaborators (the langchain chain,
the `json.loads` decoder, `time.sleep`) as explicit parameters / counters:

* `chain.invoke(...)` for one call is modelled by an `InvokeOutcome` value
  (success payload, `OutputParserException` message, or other exception
  message);
* `json.loads` is modelled by a `jsonLoads : String → Option Json` oracle
  (`none` = the decoder raises);
* each `time.sleep(API_DELAY_SECONDS)` call is counted instead of performed.
-/

mutual

/-- A JSON value (the values stored in the Python dicts of `enhance.py`). -/
inductive Json where
  | null : Json
  | bool : Bool → Json
  | num : Int → Json
  | str : String → Json
  | arr : JsonList → Json
  | obj : JsonObj → Json
deriving DecidableEq

/-- A list of JSON values (a JSON array). -/
inductive JsonList where
  | nil : JsonList
  | cons : Json → JsonList → JsonList
deriving DecidableEq

/-- An ordered list of string-keyed JSON fields (a JSON object). -/
inductive JsonObj where
  | nil : JsonObj
  | cons : String → Json → JsonObj → JsonObj
deriving DecidableEq

end

/-- Lookup of a field of a JSON object (used only to state what the sentinel
objects contain). -/
def JsonObj.get? (o : JsonObj) (k : String) : Option Json :=
  match o with
  | .nil => none
  | .cons k1 v rest => if k1 = k then some v else rest.get? k

/-- A Python dict with string keys, in insertion order (the shape of the
records `enhance.py` reads from the jsonl file). -/
abbrev Record := List (String × Json)

/-- `item[k]` / `item.get(k)`: the value stored under key `k`, if any. -/
def Record.get? (r : Record) (k : String) : Option Json :=
  (r.find? (fun p => p.1 = k)).map Prod.snd

/-- `item[k] = v`: update the value at an existing key in place (keeping its
position, as Python dicts do), or append a new key at the end. -/
def Record.set (r : Record) (k : String) (v : Json) : Record :=
  if r.any (fun p => p.1 = k) then
    r.map (fun p => if p.1 = k then (k, v) else p)
  else
    r ++ [(k, v)]

/-- Python `str.replace(pat, rep)` for a non-empty pattern: replace every
non-overlapping occurrence of `pat`, scanning left to right.  (The program
only calls it with the patterns `'.jsonl'` and `'\\'`, both non-empty; an
empty pattern is left as the identity here.)  `fuel` bounds the number of
steps; every step consumes at least one character, so `fuel = s.length` in
`replaceAll` never runs out. -/
def replaceAllGo (pat rep : List Char) : Nat → List Char → List Char
  | _, [] => []
  | 0, s => s
  | fuel + 1, c :: rest =>
    if pat ≠ [] ∧ pat.isPrefixOf (c :: rest) then
      rep ++ replaceAllGo pat rep fuel (rest.drop (pat.length - 1))
    else
      c :: replaceAllGo pat rep fuel rest

/-- Python `str.replace(pat, rep)` on character lists. -/
def replaceAll (pat rep s : List Char) : List Char :=
  replaceAllGo pat rep s.length s

/-- Python `pat in s` on character lists: does `pat` occur as a contiguous
substring? -/
def hasOccur (pat : List Char) : List Char → Bool
  | [] => pat.isEmpty
  | c :: rest => pat.isPrefixOf (c :: rest) || hasOccur pat rest

/-- Python `s.replace(pat, rep)` on strings. -/
def pyReplace (s pat rep : String) : String :=
  String.mk (replaceAll pat.data rep.data s.data)

/-- Python `pat in s` on strings. -/
def strContains (s pat : String) : Bool :=
  hasOccur pat.data s.data

/-- The suffix after the first occurrence of `pat` (as in Python
`s.split(pat, 1)[1]`); `[]` when `pat` does not occur. -/
def afterFirstDrop (pat : List Char) : List Char → List Char
  | [] => []
  | c :: rest =>
    if pat.isPrefixOf (c :: rest) then (c :: rest).drop pat.length
    else afterFirstDrop pat rest

/-- The prefix before the first occurrence of `pat` (as in Python
`s.split(pat)[0]`); the whole list when `pat` does not occur. -/
def beforeFirst (pat : List Char) : List Char → List Char
  | [] => []
  | c :: rest =>
    if pat.isPrefixOf (c :: rest) then [] else c :: beforeFirst pat rest

/-- Python `s.strip()`: drop whitespace from both ends. -/
def stripChars (s : List Char) : List Char :=
  ((s.dropWhile Char.isWhitespace).reverse.dropWhile Char.isWhitespace).reverse

/-- The marker substring the repair path looks for in the
`OutputParserException` message. -/
def marker : String := "Function Structure arguments:"

/-- The trailing phrase the repair path cuts the payload at. -/
def trailer : String := "are not valid JSON"

/-- The payload extraction of the repair path:
`error_msg.split("Function Structure arguments:", 1)[1].strip()`
`.split('are not valid JSON')[0].strip()`. -/
def extractJsonStr (errorMsg : String) : String :=
  let afterMarker := afterFirstDrop marker.data errorMsg.data
  let beforeTrailer := beforeFirst trailer.data (stripChars afterMarker)
  String.mk (stripChars beforeTrailer)

/-- The all-"Error" sentinel assigned to `item['AI']` when an
`OutputParserException` could not be repaired. -/
def errorSentinelAI : Json :=
  .obj (.cons "tldr" (.str "Error")
    (.cons "motivation" (.str "Error")
      (.cons "method" (.str "Error")
        (.cons "result" (.str "Error")
          (.cons "conclusion" (.str "Error") .nil)))))

/-- The sentinel assigned to `item['AI']` on any other exception `e`;
`msg = str(e)`. -/
def unexpectedErrorAI (msg : String) : Json :=
  .obj (.cons "tldr" (.str "Unexpected Error")
    (.cons "motivation" (.str msg)
      (.cons "method" (.str "N/A")
        (.cons "result" (.str "N/A")
          (.cons "conclusion" (.str "N/A") .nil)))))

/-- The outcome of one `chain.invoke({"language": ..., "content": ...})`
call to the external langchain service: a structured response whose
`model_dump()` is `dump`, an `OutputParserException` whose `str(e)` is
`msg`, or any other exception whose `str(e)` is `msg`. -/
inductive InvokeOutcome where
  | success : (dump : Json) → InvokeOutcome
  | parseFailure : (msg : String) → InvokeOutcome
  | otherFailure : (msg : String) → InvokeOutcome

/-- Embedding of `process_single_item(chain, item, language)`.

The external pieces are parameters: `outcome` is what `chain.invoke` does on
this call (it absorbs `chain`, `language` and the summary text) and
`jsonLoads` is `json.loads` (`none` = the decoder raises).  The result is
`.ok (item', sleeps)` when the function returns `item'` after calling
`time.sleep(API_DELAY_SECONDS)` `sleeps` times, and `.error st` when an
exception escapes the function with the item dict in state `st`.

Control flow mirrored from the source:
* `item['summary']` is evaluated first inside the `try`; a missing key is a
  `KeyError` whose `str` is `'summary'` (with quotes), caught by the generic
  `except Exception` branch;
* on success the `try` body assigns `response.model_dump()` to `item['AI']`
  and sleeps once, and then the `else` clause of the `try` statement sleeps
  again;
* on `OutputParserException`, if the marker is present the code extracts the
  payload, escapes backslashes, and tries `json.loads`; on decode success it
  assigns the decoded value and returns after one sleep; on decode failure
  the log line evaluates `item['id']`, which raises `KeyError` past the
  function when the record has no `id` key (no handler applies inside an
  `except` block), and otherwise the code falls through to the all-"Error"
  sentinel with one sleep; without the marker it assigns that sentinel
  directly and sleeps once;
* on any other exception it assigns the "Unexpected Error" sentinel carrying
  `str(e)` and sleeps once. -/
def process_single_item (jsonLoads : String → Option Json)
    (outcome : InvokeOutcome) (item : Record) :
    Except Record (Record × Nat) :=
  match item.get? "summary" with
  | none => .ok (item.set "AI" (unexpectedErrorAI "'summary'"), 1)
  | some _ =>
    match outcome with
    | .success dump => .ok (item.set "AI" dump, 2)
    | .parseFailure msg =>
        if strContains msg marker then
          match jsonLoads (pyReplace (extractJsonStr msg) "\\" "\\\\") with
          | some fixedData => .ok (item.set "AI" fixedData, 1)
          | none =>
              match item.get? "id" with
              | none => .error item
              | some _ => .ok (item.set "AI" errorSentinelAI, 1)
        else .ok (item.set "AI" errorSentinelAI, 1)
    | .otherFailure msg => .ok (item.set "AI" (unexpectedErrorAI msg), 1)

/-- The number of `time.sleep(API_DELAY_SECONDS)` calls performed by a
normally-returning `process_single_item` run. -/
def sleepsOf : Except Record (Record × Nat) → Option Nat
  | .ok (_, n) => some n
  | .error _ => none

/-- The value the scheduler loop of `process_all_items` stores into
`processed_data[idx]` for index `idx`: the returned record on success, and on
an escaped exception the state of `data[idx]` — which is the very dict object
the worker mutated, so its state at failure time is the escape-time state
carried by `.error`. -/
def slotValue (jsonLoads : String → Option Json)
    (outcomes : Nat → InvokeOutcome) (data : List Record) (idx : Nat) :
    Record :=
  match process_single_item jsonLoads (outcomes idx) (data.getD idx []) with
  | .ok (r, _) => r
  | .error st => st

/-- Embedding of `process_all_items(data, model_name, language, max_workers)`.

`outcomes idx` is what the shared chain's `invoke` does for the work item at
original index `idx`, and `order` is the completion order in which
`as_completed` yields the futures (a permutation of `0, ..., len(data)-1`;
the worker count only influences which permutations can arise, not the
result).  `processed_data = [None] * len(data)` is the pre-sized slot array;
each completed future is stored at `future_to_idx[future]`, its original
index, with the original `data[idx]` substituted when `future.result()`
raises. -/
def process_all_items (jsonLoads : String → Option Json)
    (outcomes : Nat → InvokeOutcome) (data : List Record)
    (order : List Nat) : List (Option Record) :=
  order.foldl
    (fun processed idx =>
      match process_single_item jsonLoads (outcomes idx) (data.getD idx []) with
      | .ok (r, _) => processed.set idx (some r)
      | .error st => processed.set idx (some st))
    (List.replicate data.length none)

/-- Embedding of the deduplication loop of `main`:
`seen_ids` accumulates the `item['id']` values already kept and each record
whose id is unseen is appended to `unique_data`.  `item['id']` on a record
without an `id` key raises `KeyError` (modelled by `.error ()`), aborting the
run. -/
def dedupGo (seen : List Json) : List Record → Except Unit (List Record)
  | [] => .ok []
  | item :: rest =>
    match item.get? "id" with
    | none => .error ()
    | some i =>
      if i ∈ seen then dedupGo seen rest
      else
        match dedupGo (i :: seen) rest with
        | .ok l => .ok (item :: l)
        | .error e => .error e

/-- The deduplication pass of `main`, starting from an empty `seen_ids`. -/
def deduplicate (data : List Record) : Except Unit (List Record) :=
  dedupGo [] data

/-- Modelling Python `int(s)` on a decimal string: surrounding whitespace,
an optional single sign, then one or more ASCII digits; anything else raises
`ValueError` (`none`).  (Underscore digit grouping is not modelled; it does
not matter for the claims below.) -/
def pyInt? (s : String) : Option Int :=
  let t := stripChars s.data
  let (sign, digits) :=
    match t with
    | '-' :: rest => ((-1 : Int), rest)
    | '+' :: rest => ((1 : Int), rest)
    | _ => ((1 : Int), t)
  if digits ≠ [] ∧ digits.all Char.isDigit then
    some (sign * (digits.foldl (fun acc c => acc * 10 + (c.toNat - '0'.toNat)) 0 : Nat))
  else none

/-- Embedding of the module-level configuration load:
`API_DELAY_SECONDS = int(os.environ.get("API_DELAY_SECONDS", 5))` followed by
`if not isinstance(API_DELAY_SECONDS, int) or API_DELAY_SECONDS < 0:` which
warns and resets to 5.  `env` is the environment variable's value if set.
`int(...)` raising `ValueError` is `.error ()` (uncaught at module level, so
the run aborts); otherwise the result is the delay together with whether the
warning was printed.  After `int(...)`, `isinstance(..., int)` is always
true, so only `API_DELAY_SECONDS < 0` can trigger the fallback. -/
def loadApiDelaySeconds (env : Option String) : Except Unit (Nat × Bool) :=
  match env with
  | none => .ok (5, false)
  | some s =>
    match pyInt? s with
    | none => .error ()
    | some n => if n < 0 then .ok (5, true) else .ok (n.toNat, false)

/-- Embedding of the output-path derivation of `main`:
`target_file = args.data.replace('.jsonl', f'_AI_enhanced_{language}.jsonl')`.
The same `target_file` is the path deleted before the run (if it exists) and
the path the final results are written to. -/
def targetFile (dataPath language : String) : String :=
  pyReplace dataPath ".jsonl" ("_AI_enhanced_" ++ language ++ ".jsonl")

/-- Field lookup on a JSON value that is an object (used to state what the
sentinel annotations contain). -/
def Json.field? : Json → String → Option Json
  | .obj o, k => o.get? k
  | _, _ => none

/-- The first record of `data` whose `id` value is `i` (used to state the
deduplication contract). -/
def firstWithId (data : List Record) (i : Option Json) : Option Record :=
  data.find? (fun x => Record.get? x "id" = i)

/-- The id value of a record, as the deduplication loop reads it. -/
def idOf (r : Record) : Option Json :=
  Record.get? r "id"

-- ------------------------------------------------------------------------
-- Theorems.
-- ------------------------------------------------------------------------

theorem Record.set_cons_of_ne (q : String × Json) (t : Record) (k : String)
    (v : Json) (hq : q.1 ≠ k) :
    Record.set (q :: t) k v = q :: Record.set t k v := by
  by_cases ht : (t.any fun p => decide (p.1 = k)) = true
  · simp only [Record.set, List.any_cons, ht, Bool.or_true, if_pos,
      List.map_cons, if_neg hq]
  · simp only [Record.set, List.any_cons, Bool.or_eq_true, decide_eq_true_eq]
    rw [if_neg (by tauto), if_neg (by simpa using ht)]
    simp

theorem Record.get?_set_self (r : Record) (k : String) (v : Json) :
    (r.set k v).get? k = some v := by
  induction r with
  | nil => simp [Record.set, Record.get?]
  | cons q t ih =>
      by_cases hq : q.1 = k
      · simp [Record.set, Record.get?, hq]
      · rw [Record.set_cons_of_ne q t k v hq]
        simpa [Record.get?, List.find?, hq] using ih

theorem Record.get?_set_of_ne (r : Record) (k k' : String) (v : Json)
    (h : k ≠ k') : (r.set k v).get? k' = r.get? k' := by
  induction r with
  | nil =>
      have h1 : (decide (k = k')) = false := by simp [h]
      simp [Record.set, Record.get?, List.find?, h1]
  | cons q t ih =>
      by_cases hq : q.1 = k
      · have hmap : ∀ (u : Record),
            List.find? (fun p => decide (p.1 = k'))
                (u.map (fun p => if p.1 = k then (k, v) else p)) =
              List.find? (fun p => decide (p.1 = k')) u := by
          intro u
          induction u with
          | nil => rfl
          | cons w ws ihw =>
              by_cases hw : w.1 = k
              · have h1 : (decide ((k, v).1 = k')) = false := by simp [h]
                have h2 : (decide (w.1 = k')) = false := by
                  simp [hw, h]
                simp [List.find?, hw, h1, h2, ihw]
              · simp only [List.map_cons, if_neg hw, List.find?]
                cases hwk : decide (w.1 = k') <;> simp [ihw]
        have hany : ((q :: t).any fun p => decide (p.1 = k)) = true := by
          simp [List.any_cons, hq]
        simp only [Record.set, hany, if_pos, Record.get?]
        rw [hmap (q :: t)]
      · rw [Record.set_cons_of_ne q t k v hq]
        simp only [Record.get?, List.find?] at ih ⊢
        cases hqk : decide (q.1 = k') <;> simp [ih]

theorem foldl_set_length {α : Type} (f : Nat → α) (l : List Nat)
    (acc : List α) :
    (l.foldl (fun a j => a.set j (f j)) acc).length = acc.length := by
  induction l generalizing acc with
  | nil => rfl
  | cons j rest ih => rw [List.foldl_cons, ih, List.length_set]

theorem foldl_set_getElem? {α : Type} (f : Nat → α) (l : List Nat)
    (acc : List α) (i : Nat) :
    (l.foldl (fun a j => a.set j (f j)) acc)[i]? =
      if i ∈ l ∧ i < acc.length then some (f i) else acc[i]? := by
  induction l generalizing acc with
  | nil => simp
  | cons j rest ih =>
      rw [List.foldl_cons, ih]
      by_cases hmem : i ∈ rest
      · by_cases hlen : i < acc.length
        · simp [hmem, hlen, List.length_set]
        · have h1 : ¬ i < (acc.set j (f j)).length := by
            rw [List.length_set]; exact hlen
          rw [if_neg (by tauto), if_neg (by tauto)]
          rw [List.getElem?_eq_none (by rw [List.length_set]; omega),
            List.getElem?_eq_none (by omega)]
      · by_cases hij : i = j
        · subst hij
          by_cases hlen : i < acc.length
          · rw [if_neg (by tauto), if_pos (by simp [hlen])]
            exact List.getElem?_set_eq_of_lt (f i) hlen
          · rw [if_neg (by tauto), if_neg (by tauto)]
            rw [List.getElem?_eq_none (by rw [List.length_set]; omega),
              List.getElem?_eq_none (by omega)]
        · have hni : i ∉ (j :: rest) := by
            intro hc
            cases hc with
            | head => exact hij rfl
            | tail _ hc2 => exact hmem hc2
          rw [if_neg (by tauto), if_neg (by tauto)]
          exact List.getElem?_set_ne (Ne.symm hij)

theorem process_all_items_eq (jsonLoads : String → Option Json)
    (outcomes : Nat → InvokeOutcome) (data : List Record)
    (order : List Nat) :
    process_all_items jsonLoads outcomes data order =
      order.foldl
        (fun processed idx =>
          processed.set idx (some (slotValue jsonLoads outcomes data idx)))
        (List.replicate data.length none) := by
  have hbody : (fun (processed : List (Option Record)) idx =>
      match process_single_item jsonLoads (outcomes idx) (data.getD idx []) with
      | .ok (r, _) => processed.set idx (some r)
      | .error st => processed.set idx (some st)) =
      (fun processed idx =>
        processed.set idx (some (slotValue jsonLoads outcomes data idx))) := by
    funext processed idx
    unfold slotValue
    cases process_single_item jsonLoads (outcomes idx) (data.getD idx []) with
    | ok p => cases p with | mk r n => rfl
    | error st => rfl
  unfold process_all_items
  rw [hbody]

theorem process_all_items_length (jsonLoads : String → Option Json)
    (outcomes : Nat → InvokeOutcome) (data : List Record)
    (order : List Nat) :
    (process_all_items jsonLoads outcomes data order).length = data.length := by
  rw [process_all_items_eq, foldl_set_length, List.length_replicate]

theorem process_all_items_getElem? (jsonLoads : String → Option Json)
    (outcomes : Nat → InvokeOutcome) (data : List Record)
    (order : List Nat) (i : Nat) (hi : i < data.length) (hmem : i ∈ order) :
    (process_all_items jsonLoads outcomes data order)[i]? =
      some (some (slotValue jsonLoads outcomes data i)) := by
  rw [process_all_items_eq, foldl_set_getElem?]
  rw [if_pos (by rw [List.length_replicate]; exact ⟨hmem, hi⟩)]

/-- Claim C1: for every input sequence of records, the pipeline produces
exactly one output record per deduplicated input record: the result array is
pre-sized to the length of the deduplicated input, each slot is written
exactly once keyed by original index (the completion order yields every
index exactly once), and after the pool drains every slot is non-empty. -/
theorem claim_C1 (jsonLoads : String → Option Json)
    (outcomes : Nat → InvokeOutcome) (input ddata : List Record)
    (order : List Nat) (hd : deduplicate input = .ok ddata)
    (hp : order.Perm (List.range ddata.length)) :
    (process_all_items jsonLoads outcomes ddata order).length = ddata.length ∧
    ∀ s ∈ process_all_items jsonLoads outcomes ddata order, s.isSome := by
  refine ⟨process_all_items_length jsonLoads outcomes ddata order, ?_⟩
  intro s hs
  rw [List.mem_iff_getElem?] at hs
  obtain ⟨i, hi⟩ := hs
  have hilen : i < ddata.length := by
    by_contra hcon
    rw [List.getElem?_eq_none
      (by rw [process_all_items_length]; omega)] at hi
    cases hi
  have hmem : i ∈ order := (hp.mem_iff).mpr (List.mem_range.mpr hilen)
  rw [process_all_items_getElem? jsonLoads outcomes ddata order i hilen hmem]
    at hi
  injection hi with hi2
  rw [← hi2]
  rfl

theorem claim_C1_witness :
    deduplicate [[("id", Json.num 1), ("summary", Json.str "A")],
        [("id", Json.num 1), ("summary", Json.str "B")],
        [("id", Json.num 2), ("summary", Json.str "C")]] =
      .ok [[("id", Json.num 1), ("summary", Json.str "A")],
        [("id", Json.num 2), ("summary", Json.str "C")]] ∧
    [1, 0].Perm (List.range
      ([[("id", Json.num 1), ("summary", Json.str "A")],
        [("id", Json.num 2), ("summary", Json.str "C")]] : List Record).length) ∧
    ((process_all_items (fun _ => none) (fun _ => .success Json.null)
        [[("id", Json.num 1), ("summary", Json.str "A")],
         [("id", Json.num 2), ("summary", Json.str "C")]] [1, 0]).length =
      ([[("id", Json.num 1), ("summary", Json.str "A")],
        [("id", Json.num 2), ("summary", Json.str "C")]] : List Record).length ∧
      ∀ s ∈ process_all_items (fun _ => none) (fun _ => .success Json.null)
        [[("id", Json.num 1), ("summary", Json.str "A")],
         [("id", Json.num 2), ("summary", Json.str "C")]] [1, 0], s.isSome) :=
  ⟨rfl, by decide,
    claim_C1 (fun _ => none) (fun _ => .success Json.null)
      [[("id", Json.num 1), ("summary", Json.str "A")],
        [("id", Json.num 1), ("summary", Json.str "B")],
        [("id", Json.num 2), ("summary", Json.str "C")]]
      [[("id", Json.num 1), ("summary", Json.str "A")],
        [("id", Json.num 2), ("summary", Json.str "C")]]
      [1, 0] rfl (by decide)⟩

/-- Claim C2: for every input sequence and every completion order of the
workers, the final output sequence order matches the deduplicated input
order: slot `i` always holds the result of work item `i` (its original
index), never the item that arrived in position `i`, so any two completion
orders give the same output list. -/
theorem claim_C2 (jsonLoads : String → Option Json)
    (outcomes : Nat → InvokeOutcome) (data : List Record)
    (o1 o2 : List Nat) (h1 : o1.Perm (List.range data.length))
    (h2 : o2.Perm (List.range data.length)) :
    process_all_items jsonLoads outcomes data o1 =
      process_all_items jsonLoads outcomes data o2 ∧
    ∀ i, i < data.length →
      (process_all_items jsonLoads outcomes data o1)[i]? =
        some (some (slotValue jsonLoads outcomes data i)) := by
  have hmem1 : ∀ i, i < data.length → i ∈ o1 := fun i hi =>
    (h1.mem_iff).mpr (List.mem_range.mpr hi)
  have hmem2 : ∀ i, i < data.length → i ∈ o2 := fun i hi =>
    (h2.mem_iff).mpr (List.mem_range.mpr hi)
  constructor
  · apply List.ext_getElem?
    intro i
    by_cases hi : i < data.length
    · rw [process_all_items_getElem? jsonLoads outcomes data o1 i hi
        (hmem1 i hi),
        process_all_items_getElem? jsonLoads outcomes data o2 i hi
        (hmem2 i hi)]
    · rw [List.getElem?_eq_none (by rw [process_all_items_length]; omega),
        List.getElem?_eq_none (by rw [process_all_items_length]; omega)]
  · intro i hi
    exact process_all_items_getElem? jsonLoads outcomes data o1 i hi
      (hmem1 i hi)

theorem claim_C2_witness :
    [2, 0, 1].Perm (List.range
      ([[("id", Json.num 1), ("summary", Json.str "A")],
        [("id", Json.num 2), ("summary", Json.str "B")],
        [("id", Json.num 3), ("summary", Json.str "C")]] : List Record).length) ∧
    [0, 1, 2].Perm (List.range
      ([[("id", Json.num 1), ("summary", Json.str "A")],
        [("id", Json.num 2), ("summary", Json.str "B")],
        [("id", Json.num 3), ("summary", Json.str "C")]] : List Record).length) ∧
    (process_all_items (fun _ => none) (fun i => .otherFailure (toString i))
        [[("id", Json.num 1), ("summary", Json.str "A")],
         [("id", Json.num 2), ("summary", Json.str "B")],
         [("id", Json.num 3), ("summary", Json.str "C")]] [2, 0, 1] =
      process_all_items (fun _ => none) (fun i => .otherFailure (toString i))
        [[("id", Json.num 1), ("summary", Json.str "A")],
         [("id", Json.num 2), ("summary", Json.str "B")],
         [("id", Json.num 3), ("summary", Json.str "C")]] [0, 1, 2] ∧
      ∀ i, i < ([[("id", Json.num 1), ("summary", Json.str "A")],
          [("id", Json.num 2), ("summary", Json.str "B")],
          [("id", Json.num 3), ("summary", Json.str "C")]] : List Record).length →
        (process_all_items (fun _ => none) (fun i => .otherFailure (toString i))
          [[("id", Json.num 1), ("summary", Json.str "A")],
           [("id", Json.num 2), ("summary", Json.str "B")],
           [("id", Json.num 3), ("summary", Json.str "C")]] [2, 0, 1])[i]? =
          some (some (slotValue (fun _ => none)
            (fun i => .otherFailure (toString i))
            [[("id", Json.num 1), ("summary", Json.str "A")],
             [("id", Json.num 2), ("summary", Json.str "B")],
             [("id", Json.num 3), ("summary", Json.str "C")]] i))) :=
  ⟨by decide, by decide,
    claim_C2 (fun _ => none) (fun i => .otherFailure (toString i))
      [[("id", Json.num 1), ("summary", Json.str "A")],
       [("id", Json.num 2), ("summary", Json.str "B")],
       [("id", Json.num 3), ("summary", Json.str "C")]]
      [2, 0, 1] [0, 1, 2] (by decide) (by decide)⟩

theorem psi_error_state (jsonLoads : String → Option Json)
    (outcome : InvokeOutcome) (item st : Record)
    (h : process_single_item jsonLoads outcome item = .error st) :
    st = item := by
  unfold process_single_item at h
  repeat' split at h
  all_goals simp_all

/-- Claim C4: for every input record with an `id` and `summary` field and
every outcome of the external call, `process_single_item` never raises past
its own boundary and always returns a record whose `AI` field is set. -/
theorem claim_C4 (jsonLoads : String → Option Json)
    (outcome : InvokeOutcome) (item : Record)
    (hid : (Record.get? item "id").isSome)
    (hsum : (Record.get? item "summary").isSome) :
    ∃ r n, process_single_item jsonLoads outcome item = .ok (r, n) ∧
      (Record.get? r "AI").isSome := by
  obtain ⟨y, hy⟩ := Option.isSome_iff_exists.mp hsum
  obtain ⟨z, hz⟩ := Option.isSome_iff_exists.mp hid
  unfold process_single_item
  cases outcome with
  | success d =>
      rw [hy]
      refine ⟨item.set "AI" d, 2, rfl, ?_⟩
      rw [Record.get?_set_self]
      rfl
  | otherFailure m =>
      rw [hy]
      refine ⟨item.set "AI" (unexpectedErrorAI m), 1, rfl, ?_⟩
      rw [Record.get?_set_self]
      rfl
  | parseFailure m =>
      cases hm : strContains m marker with
      | true =>
          simp only [hy]
          rw [if_pos hm]
          cases hj : jsonLoads (pyReplace (extractJsonStr m) "\\" "\\\\") with
          | some v =>
              simp only [hj]
              refine ⟨item.set "AI" v, 1, rfl, ?_⟩
              rw [Record.get?_set_self]
              rfl
          | none =>
              simp only [hj, hz]
              refine ⟨item.set "AI" errorSentinelAI, 1, rfl, ?_⟩
              rw [Record.get?_set_self]
              rfl
      | false =>
          simp only [hy]
          rw [if_neg (by simp [hm])]
          refine ⟨item.set "AI" errorSentinelAI, 1, rfl, ?_⟩
          rw [Record.get?_set_self]
          rfl

theorem claim_C4_witness :
    ((Record.get? [("id", Json.num 7), ("summary", Json.str "s")] "id").isSome ∧
      (Record.get? [("id", Json.num 7), ("summary", Json.str "s")]
        "summary").isSome) ∧
    ∃ r n, process_single_item (fun _ => none)
        (.parseFailure "Function Structure arguments: oops are not valid JSON")
        [("id", Json.num 7), ("summary", Json.str "s")] = .ok (r, n) ∧
      (Record.get? r "AI").isSome :=
  ⟨⟨by decide, by decide⟩,
    claim_C4 (fun _ => none)
      (.parseFailure "Function Structure arguments: oops are not valid JSON")
      [("id", Json.num 7), ("summary", Json.str "s")]
      (by decide) (by decide)⟩

theorem psi_success_eq (jsonLoads : String → Option Json) (d : Json)
    (item : Record) (y : Json) (hy : Record.get? item "summary" = some y) :
    process_single_item jsonLoads (.success d) item =
      .ok (item.set "AI" d, 2) := by
  unfold process_single_item
  rw [hy]

theorem psi_other_eq (jsonLoads : String → Option Json) (m : String)
    (item : Record) (y : Json) (hy : Record.get? item "summary" = some y) :
    process_single_item jsonLoads (.otherFailure m) item =
      .ok (item.set "AI" (unexpectedErrorAI m), 1) := by
  unfold process_single_item
  rw [hy]

theorem psi_repair_eq (jsonLoads : String → Option Json) (m : String)
    (v : Json) (item : Record) (y : Json)
    (hy : Record.get? item "summary" = some y)
    (hm : strContains m marker = true)
    (hj : jsonLoads (pyReplace (extractJsonStr m) "\\" "\\\\") = some v) :
    process_single_item jsonLoads (.parseFailure m) item =
      .ok (item.set "AI" v, 1) := by
  unfold process_single_item
  simp only [hy]
  rw [if_pos hm]
  simp only [hj]

theorem psi_nomarker_eq (jsonLoads : String → Option Json) (m : String)
    (item : Record) (y : Json)
    (hy : Record.get? item "summary" = some y)
    (hm : strContains m marker = false) :
    process_single_item jsonLoads (.parseFailure m) item =
      .ok (item.set "AI" errorSentinelAI, 1) := by
  unfold process_single_item
  simp only [hy]
  rw [if_neg (by simp [hm])]

theorem psi_norepair_eq (jsonLoads : String → Option Json) (m : String)
    (item : Record) (y z : Json)
    (hy : Record.get? item "summary" = some y)
    (hz : Record.get? item "id" = some z)
    (hm : strContains m marker = true)
    (hj : jsonLoads (pyReplace (extractJsonStr m) "\\" "\\\\") = none) :
    process_single_item jsonLoads (.parseFailure m) item =
      .ok (item.set "AI" errorSentinelAI, 1) := by
  unfold process_single_item
  simp only [hy]
  rw [if_pos hm]
  simp only [hj, hz]

/-- Claim C3 (amended): every failure path of `process_single_item` — the
repaired parse failure, the unrepairable parse failure, and the generic
failure — performs exactly one `time.sleep(API_DELAY_SECONDS)` call, but the
success path performs exactly two (one at the end of the `try` body and one
more in the `else` clause of the `try` statement). -/
theorem claim_C3 (jsonLoads : String → Option Json) (item : Record)
    (d v : Json) (mRepair mNoMarker mNoRepair mOther : String)
    (y z : Json) (hy : Record.get? item "summary" = some y)
    (hz : Record.get? item "id" = some z)
    (hmR : strContains mRepair marker = true)
    (hjR : jsonLoads (pyReplace (extractJsonStr mRepair) "\\" "\\\\") = some v)
    (hmN : strContains mNoMarker marker = false)
    (hmU : strContains mNoRepair marker = true)
    (hjU : jsonLoads (pyReplace (extractJsonStr mNoRepair) "\\" "\\\\") = none) :
    sleepsOf (process_single_item jsonLoads (.success d) item) = some 2 ∧
    sleepsOf (process_single_item jsonLoads (.parseFailure mRepair) item) =
      some 1 ∧
    sleepsOf (process_single_item jsonLoads (.parseFailure mNoMarker) item) =
      some 1 ∧
    sleepsOf (process_single_item jsonLoads (.parseFailure mNoRepair) item) =
      some 1 ∧
    sleepsOf (process_single_item jsonLoads (.otherFailure mOther) item) =
      some 1 := by
  refine ⟨?_, ?_, ?_, ?_, ?_⟩
  · rw [psi_success_eq jsonLoads d item y hy]
    rfl
  · rw [psi_repair_eq jsonLoads mRepair v item y hy hmR hjR]
    rfl
  · rw [psi_nomarker_eq jsonLoads mNoMarker item y hy hmN]
    rfl
  · rw [psi_norepair_eq jsonLoads mNoRepair item y z hy hz hmU hjU]
    rfl
  · rw [psi_other_eq jsonLoads mOther item y hy]
    rfl

/-- Claim C3, refuted as stated: on the success path the pacing delay is
paid twice, not exactly once — the `try` body sleeps after assigning
`item['AI']` and the `else` clause of the same `try` statement sleeps again
before `return item`. -/
theorem claim_C3_counterexample :
    sleepsOf (process_single_item (fun _ => none)
      (.success Json.null)
      [("id", Json.num 1), ("summary", Json.str "s")]) = some 2 ∧
    sleepsOf (process_single_item (fun _ => none)
      (.success Json.null)
      [("id", Json.num 1), ("summary", Json.str "s")]) ≠ some 1 := by
  refine ⟨rfl, ?_⟩
  intro h
  simp only [sleepsOf] at h
  cases h

theorem claim_C3_witness :
    Record.get? [("id", Json.num 1), ("summary", Json.str "s")] "summary" =
      some (Json.str "s") ∧
    Record.get? [("id", Json.num 1), ("summary", Json.str "s")] "id" =
      some (Json.num 1) ∧
    strContains "Function Structure arguments: GOOD are not valid JSON"
      marker = true ∧
    (fun s => if s = "GOOD" then some (Json.str "g") else none)
      (pyReplace (extractJsonStr
        "Function Structure arguments: GOOD are not valid JSON")
        "\\" "\\\\") = some (Json.str "g") ∧
    strContains "boom" marker = false ∧
    strContains "Function Structure arguments: BAD are not valid JSON"
      marker = true ∧
    (fun s => if s = "GOOD" then some (Json.str "g") else none)
      (pyReplace (extractJsonStr
        "Function Structure arguments: BAD are not valid JSON")
        "\\" "\\\\") = none ∧
    (sleepsOf (process_single_item
        (fun s => if s = "GOOD" then some (Json.str "g") else none)
        (.success Json.null)
        [("id", Json.num 1), ("summary", Json.str "s")]) = some 2 ∧
      sleepsOf (process_single_item
        (fun s => if s = "GOOD" then some (Json.str "g") else none)
        (.parseFailure
          "Function Structure arguments: GOOD are not valid JSON")
        [("id", Json.num 1), ("summary", Json.str "s")]) = some 1 ∧
      sleepsOf (process_single_item
        (fun s => if s = "GOOD" then some (Json.str "g") else none)
        (.parseFailure "boom")
        [("id", Json.num 1), ("summary", Json.str "s")]) = some 1 ∧
      sleepsOf (process_single_item
        (fun s => if s = "GOOD" then some (Json.str "g") else none)
        (.parseFailure
          "Function Structure arguments: BAD are not valid JSON")
        [("id", Json.num 1), ("summary", Json.str "s")]) = some 1 ∧
      sleepsOf (process_single_item
        (fun s => if s = "GOOD" then some (Json.str "g") else none)
        (.otherFailure "net down")
        [("id", Json.num 1), ("summary", Json.str "s")]) = some 1) :=
  ⟨by decide, by decide, by decide, by decide, by decide, by decide,
    by decide,
    claim_C3 (fun s => if s = "GOOD" then some (Json.str "g") else none)
      [("id", Json.num 1), ("summary", Json.str "s")]
      Json.null (Json.str "g")
      "Function Structure arguments: GOOD are not valid JSON"
      "boom"
      "Function Structure arguments: BAD are not valid JSON"
      "net down" (Json.str "s") (Json.num 1)
      (by decide) (by decide) (by decide) (by decide) (by decide)
      (by decide) (by decide)⟩

/-- Claim C6: for every output-parse failure whose raw error text contains
the marker substring and whose extracted, backslash-escaped argument string
decodes as JSON, the invoker assigns the decoded object directly as the `AI`
annotation — passed through as-is, not validated against the five-field
schema — and never assigns the sentinel. -/
theorem claim_C6 (jsonLoads : String → Option Json) (item : Record)
    (m : String) (v y : Json)
    (hy : Record.get? item "summary" = some y)
    (hm : strContains m marker = true)
    (hj : jsonLoads (pyReplace (extractJsonStr m) "\\" "\\\\") = some v) :
    process_single_item jsonLoads (.parseFailure m) item =
      .ok (item.set "AI" v, 1) ∧
    Record.get? (item.set "AI" v) "AI" = some v ∧
    (v ≠ errorSentinelAI →
      Record.get? (item.set "AI" v) "AI" ≠ some errorSentinelAI) := by
  refine ⟨psi_repair_eq jsonLoads m v item y hy hm hj,
    Record.get?_set_self item "AI" v, ?_⟩
  intro hne hcon
  rw [Record.get?_set_self] at hcon
  injection hcon with h2
  exact hne h2

theorem claim_C6_witness :
    Record.get? [("id", Json.num 1), ("summary", Json.str "s")] "summary" =
      some (Json.str "s") ∧
    strContains "Function Structure arguments: GOOD are not valid JSON"
      marker = true ∧
    (fun s => if s = "GOOD" then some (Json.num 42) else none)
      (pyReplace (extractJsonStr
        "Function Structure arguments: GOOD are not valid JSON")
        "\\" "\\\\") = some (Json.num 42) ∧
    (process_single_item
        (fun s => if s = "GOOD" then some (Json.num 42) else none)
        (.parseFailure
          "Function Structure arguments: GOOD are not valid JSON")
        [("id", Json.num 1), ("summary", Json.str "s")] =
      .ok (Record.set [("id", Json.num 1), ("summary", Json.str "s")]
        "AI" (Json.num 42), 1) ∧
      Record.get? (Record.set [("id", Json.num 1), ("summary", Json.str "s")]
        "AI" (Json.num 42)) "AI" = some (Json.num 42) ∧
      (Json.num 42 ≠ errorSentinelAI →
        Record.get? (Record.set
          [("id", Json.num 1), ("summary", Json.str "s")]
          "AI" (Json.num 42)) "AI" ≠ some errorSentinelAI)) :=
  ⟨by decide, by decide, by decide,
    claim_C6 (fun s => if s = "GOOD" then some (Json.num 42) else none)
      [("id", Json.num 1), ("summary", Json.str "s")]
      "Function Structure arguments: GOOD are not valid JSON"
      (Json.num 42) (Json.str "s")
      (by decide) (by decide) (by decide)⟩

/-- Claim C7: a generic (non-parse) exception yields an `AI` sentinel with
`tldr = "Unexpected Error"`, `motivation` the stringified exception message
and `method`, `result`, `conclusion` all `"N/A"`; an output-parse failure
whose repair also fails (marker absent, or payload not decodable) yields
the sentinel with all five fields `"Error"`. -/
theorem claim_C7 (jsonLoads : String → Option Json) (item : Record)
    (mOther mNoMarker mNoRepair : String) (y z : Json)
    (hy : Record.get? item "summary" = some y)
    (hz : Record.get? item "id" = some z)
    (hmN : strContains mNoMarker marker = false)
    (hmU : strContains mNoRepair marker = true)
    (hjU : jsonLoads (pyReplace (extractJsonStr mNoRepair) "\\" "\\\\") =
      none) :
    process_single_item jsonLoads (.otherFailure mOther) item =
      .ok (item.set "AI" (unexpectedErrorAI mOther), 1) ∧
    (unexpectedErrorAI mOther).field? "tldr" =
      some (.str "Unexpected Error") ∧
    (unexpectedErrorAI mOther).field? "motivation" = some (.str mOther) ∧
    (unexpectedErrorAI mOther).field? "method" = some (.str "N/A") ∧
    (unexpectedErrorAI mOther).field? "result" = some (.str "N/A") ∧
    (unexpectedErrorAI mOther).field? "conclusion" = some (.str "N/A") ∧
    process_single_item jsonLoads (.parseFailure mNoMarker) item =
      .ok (item.set "AI" errorSentinelAI, 1) ∧
    process_single_item jsonLoads (.parseFailure mNoRepair) item =
      .ok (item.set "AI" errorSentinelAI, 1) ∧
    errorSentinelAI.field? "tldr" = some (.str "Error") ∧
    errorSentinelAI.field? "motivation" = some (.str "Error") ∧
    errorSentinelAI.field? "method" = some (.str "Error") ∧
    errorSentinelAI.field? "result" = some (.str "Error") ∧
    errorSentinelAI.field? "conclusion" = some (.str "Error") :=
  ⟨psi_other_eq jsonLoads mOther item y hy, rfl, rfl, rfl, rfl, rfl,
    psi_nomarker_eq jsonLoads mNoMarker item y hy hmN,
    psi_norepair_eq jsonLoads mNoRepair item y z hy hz hmU hjU,
    rfl, rfl, rfl, rfl, rfl⟩

theorem claim_C7_witness :
    Record.get? [("id", Json.num 1), ("summary", Json.str "s")] "summary" =
      some (Json.str "s") ∧
    Record.get? [("id", Json.num 1), ("summary", Json.str "s")] "id" =
      some (Json.num 1) ∧
    strContains "boom" marker = false ∧
    strContains "Function Structure arguments: BAD are not valid JSON"
      marker = true ∧
    (fun _ => (none : Option Json))
      (pyReplace (extractJsonStr
        "Function Structure arguments: BAD are not valid JSON")
        "\\" "\\\\") = none ∧
    (process_single_item (fun _ => none) (.otherFailure "socket timeout")
        [("id", Json.num 1), ("summary", Json.str "s")] =
      .ok (Record.set [("id", Json.num 1), ("summary", Json.str "s")]
        "AI" (unexpectedErrorAI "socket timeout"), 1) ∧
      (unexpectedErrorAI "socket timeout").field? "tldr" =
        some (.str "Unexpected Error") ∧
      (unexpectedErrorAI "socket timeout").field? "motivation" =
        some (.str "socket timeout") ∧
      (unexpectedErrorAI "socket timeout").field? "method" =
        some (.str "N/A") ∧
      (unexpectedErrorAI "socket timeout").field? "result" =
        some (.str "N/A") ∧
      (unexpectedErrorAI "socket timeout").field? "conclusion" =
        some (.str "N/A") ∧
      process_single_item (fun _ => none) (.parseFailure "boom")
        [("id", Json.num 1), ("summary", Json.str "s")] =
        .ok (Record.set [("id", Json.num 1), ("summary", Json.str "s")]
          "AI" errorSentinelAI, 1) ∧
      process_single_item (fun _ => none)
        (.parseFailure
          "Function Structure arguments: BAD are not valid JSON")
        [("id", Json.num 1), ("summary", Json.str "s")] =
        .ok (Record.set [("id", Json.num 1), ("summary", Json.str "s")]
          "AI" errorSentinelAI, 1) ∧
      errorSentinelAI.field? "tldr" = some (.str "Error") ∧
      errorSentinelAI.field? "motivation" = some (.str "Error") ∧
      errorSentinelAI.field? "method" = some (.str "Error") ∧
      errorSentinelAI.field? "result" = some (.str "Error") ∧
      errorSentinelAI.field? "conclusion" = some (.str "Error")) :=
  ⟨by decide, by decide, by decide, by decide, by decide,
    claim_C7 (fun _ => none)
      [("id", Json.num 1), ("summary", Json.str "s")]
      "socket timeout" "boom"
      "Function Structure arguments: BAD are not valid JSON"
      (Json.str "s") (Json.num 1)
      (by decide) (by decide) (by decide) (by decide) (by decide)⟩

/-- Claim C9: work on records is isolated per work item — when a work item's
future fails unexpectedly, the record state the scheduler substitutes at
that index (`data[idx]`, the very dict the worker was given) is identical to
the record as read from input, with no partially written fields: every
escape from `process_single_item` happens before any assignment to the
item. -/
theorem claim_C9 (jsonLoads : String → Option Json)
    (outcome : InvokeOutcome) (item st : Record) (data : List Record)
    (outcomes : Nat → InvokeOutcome) (i : Nat)
    (h : process_single_item jsonLoads outcome item = .error st)
    (hdata : data.getD i [] = item) (houtcome : outcomes i = outcome) :
    st = item ∧ slotValue jsonLoads outcomes data i = item := by
  refine ⟨psi_error_state jsonLoads outcome item st h, ?_⟩
  unfold slotValue
  rw [houtcome, hdata, h]
  exact psi_error_state jsonLoads outcome item st h

theorem claim_C9_witness :
    process_single_item (fun _ => none)
      (.parseFailure
        "Function Structure arguments: BAD are not valid JSON")
      [("summary", Json.str "s")] =
      .error [("summary", Json.str "s")] ∧
    ([[("summary", Json.str "s")]] : List Record).getD 0 [] =
      [("summary", Json.str "s")] ∧
    (([("summary", Json.str "s")] : Record) = [("summary", Json.str "s")] ∧
      slotValue (fun _ => none)
        (fun _ => .parseFailure
          "Function Structure arguments: BAD are not valid JSON")
        [[("summary", Json.str "s")]] 0 = [("summary", Json.str "s")]) :=
  ⟨rfl, rfl,
    claim_C9 (fun _ => none)
      (.parseFailure
        "Function Structure arguments: BAD are not valid JSON")
      [("summary", Json.str "s")] [("summary", Json.str "s")]
      [[("summary", Json.str "s")]]
      (fun _ => .parseFailure
        "Function Structure arguments: BAD are not valid JSON")
      0 rfl rfl rfl⟩

theorem dedupGo_spec (data : List Record) (seen : List Json)
    (h : ∀ r ∈ data, (Record.get? r "id").isSome) :
    ∃ l, dedupGo seen data = .ok l ∧
      l.Sublist data ∧
      (∀ r ∈ l, ∀ j ∈ seen, Record.get? r "id" ≠ some j) ∧
      (l.map idOf).Nodup ∧
      (∀ r ∈ data, (∃ j ∈ seen, Record.get? r "id" = some j) ∨
        idOf r ∈ l.map idOf) ∧
      (∀ r ∈ l, firstWithId data (idOf r) = some r) := by
  induction data generalizing seen with
  | nil =>
      refine ⟨[], rfl, List.Sublist.refl [], ?_, ?_, ?_, ?_⟩ <;> simp
  | cons item rest ih =>
      obtain ⟨i, hi⟩ :=
        Option.isSome_iff_exists.mp (h item (List.mem_cons_self item rest))
      have hrest : ∀ r ∈ rest, (Record.get? r "id").isSome :=
        fun r hr => h r (List.mem_cons_of_mem item hr)
      by_cases hmem : i ∈ seen
      · obtain ⟨l, hok, hsub, hdisj, hnd, hcov, hfirst⟩ := ih seen hrest
        refine ⟨l, ?_, hsub.cons item, hdisj, hnd, ?_, ?_⟩
        · unfold dedupGo
          simp only [hi]
          rw [if_pos hmem, hok]
        · intro r hr
          rcases List.mem_cons.mp hr with hr1 | hr2
          · subst hr1
            exact Or.inl ⟨i, hmem, hi⟩
          · exact hcov r hr2
        · intro r hr
          have hne : Record.get? r "id" ≠ some i :=
            hdisj r hr i hmem
          unfold firstWithId
          rw [List.find?_cons_of_neg rest (by
            simp only [decide_eq_true_eq, hi, idOf]
            intro hc
            exact hne (by rw [hc]))]
          exact hfirst r hr
      · obtain ⟨l, hok, hsub, hdisj, hnd, hcov, hfirst⟩ :=
          ih (i :: seen) hrest
        refine ⟨item :: l, ?_, hsub.cons₂ item, ?_, ?_, ?_, ?_⟩
        · unfold dedupGo
          simp only [hi]
          rw [if_neg hmem, hok]
        · intro r hr j hj
          rcases List.mem_cons.mp hr with hr1 | hr2
          · subst hr1
            rw [hi]
            intro hc
            injection hc with hc2
            rw [hc2] at hmem
            exact hmem hj
          · exact hdisj r hr2 j (List.mem_cons_of_mem i hj)
        · simp only [List.map_cons, List.nodup_cons]
          refine ⟨?_, hnd⟩
          intro hcon
          obtain ⟨r, hrl, hr2⟩ := List.mem_map.mp hcon
          refine hdisj r hrl i (List.mem_cons_self i seen) ?_
          rw [show Record.get? r "id" = idOf r from rfl, hr2,
            show idOf item = some i from by rw [idOf, hi]]
        · intro r hr
          rcases List.mem_cons.mp hr with hr1 | hr2
          · subst hr1
            exact Or.inr (List.mem_cons_self (idOf r) _)
          · rcases hcov r hr2 with ⟨j, hj, hjr⟩ | hmap
            · rcases List.mem_cons.mp hj with hj1 | hj2
              · subst hj1
                refine Or.inr ?_
                rw [List.map_cons,
                  show idOf item = some j from by rw [idOf, hi],
                  show idOf r = some j from hjr]
                exact List.mem_cons_self (some j) _
              · exact Or.inl ⟨j, hj2, hjr⟩
            · exact Or.inr (List.mem_cons_of_mem (idOf item) hmap)
        · intro r hr
          rcases List.mem_cons.mp hr with hr1 | hr2
          · subst hr1
            unfold firstWithId
            rw [List.find?_cons_of_pos rest (by simp [idOf])]
          · have hne : Record.get? r "id" ≠ some i :=
              hdisj r hr2 i (List.mem_cons_self i seen)
            unfold firstWithId
            rw [List.find?_cons_of_neg rest (by
              simp only [decide_eq_true_eq, hi, idOf]
              intro hc
              exact hne (by rw [hc]))]
            exact hfirst r hr2

/-- Claim C5: deduplication returns the ordered subsequence that retains
exactly the first record for each distinct `id` value: the result is a
subsequence of the input (first-occurrence order preserved), its ids are
pairwise distinct, every input id is represented, and each kept record is
the first record of the input carrying its id; it has no error conditions
on well-formed records (every record carrying an `id` field). -/
theorem claim_C5 (data : List Record)
    (h : ∀ r ∈ data, (Record.get? r "id").isSome) :
    ∃ l, deduplicate data = .ok l ∧
      l.Sublist data ∧
      (l.map idOf).Nodup ∧
      (∀ r ∈ data, idOf r ∈ l.map idOf) ∧
      (∀ r ∈ l, firstWithId data (idOf r) = some r) := by
  obtain ⟨l, hok, hsub, _, hnd, hcov, hfirst⟩ := dedupGo_spec data [] h
  refine ⟨l, hok, hsub, hnd, ?_, hfirst⟩
  intro r hr
  rcases hcov r hr with ⟨j, hj, _⟩ | hmap
  · exact absurd hj (List.not_mem_nil j)
  · exact hmap

theorem claim_C5_witness :
    (∀ r ∈ ([[("id", Json.num 1), ("summary", Json.str "A")],
        [("id", Json.num 1), ("summary", Json.str "B")],
        [("id", Json.num 2), ("summary", Json.str "C")]] : List Record),
      (Record.get? r "id").isSome) ∧
    ∃ l, deduplicate [[("id", Json.num 1), ("summary", Json.str "A")],
        [("id", Json.num 1), ("summary", Json.str "B")],
        [("id", Json.num 2), ("summary", Json.str "C")]] = .ok l ∧
      l.Sublist [[("id", Json.num 1), ("summary", Json.str "A")],
        [("id", Json.num 1), ("summary", Json.str "B")],
        [("id", Json.num 2), ("summary", Json.str "C")]] ∧
      (l.map idOf).Nodup ∧
      (∀ r ∈ ([[("id", Json.num 1), ("summary", Json.str "A")],
          [("id", Json.num 1), ("summary", Json.str "B")],
          [("id", Json.num 2), ("summary", Json.str "C")]] : List Record),
        idOf r ∈ l.map idOf) ∧
      (∀ r ∈ l, firstWithId
        [[("id", Json.num 1), ("summary", Json.str "A")],
          [("id", Json.num 1), ("summary", Json.str "B")],
          [("id", Json.num 2), ("summary", Json.str "C")]] (idOf r) =
        some r) :=
  ⟨by decide,
    claim_C5 [[("id", Json.num 1), ("summary", Json.str "A")],
      [("id", Json.num 1), ("summary", Json.str "B")],
      [("id", Json.num 2), ("summary", Json.str "C")]] (by decide)⟩

/-- Claim C8, checked against the code: the configuration load only
falls back to the default (with a warning) for negative integer values of
`API_DELAY_SECONDS`.  For a value that does not parse as an integer at all,
`int(os.environ.get("API_DELAY_SECONDS", 5))` raises `ValueError` at
module-import time and the run aborts — the documented fallback (also
stated by the comment right above the check in the source) is unreachable
for such values because `isinstance(API_DELAY_SECONDS, int)` is always true
after `int(...)` succeeds. -/
theorem claim_C8 :
    loadApiDelaySeconds (some "abc") = .error () ∧
    loadApiDelaySeconds (some "-3") = .ok (5, true) ∧
    loadApiDelaySeconds (some "7") = .ok (7, false) ∧
    loadApiDelaySeconds none = .ok (5, false) :=
  ⟨rfl, rfl, rfl, rfl⟩

theorem replaceAllGo_of_not_occur (pat rep : List Char) (s : List Char)
    (h : hasOccur pat s = false) :
    ∀ fuel, replaceAllGo pat rep fuel s = s := by
  induction s with
  | nil => intro fuel; cases fuel <;> rfl
  | cons c rest ih =>
      intro fuel
      unfold hasOccur at h
      rw [Bool.or_eq_false_iff] at h
      cases fuel with
      | zero => rfl
      | succ n =>
          unfold replaceAllGo
          rw [if_neg (by simp [h.1])]
          rw [ih h.2 n]

theorem pyReplace_of_not_occur (s pat rep : String)
    (h : hasOccur pat.data s.data = false) : pyReplace s pat rep = s := by
  unfold pyReplace replaceAll
  rw [replaceAllGo_of_not_occur pat.data rep.data s.data h]

/-- Claim C10: the output path is derived by replacing every occurrence of
the substring `.jsonl` anywhere in the input path (not only a trailing
extension — an interior occurrence is rewritten too, second conjunct); in
particular, for an input path containing no `.jsonl` substring the derived
output path equals the input path itself, so the pre-run deletion and the
final write target the input file. -/
theorem claim_C10 (path language : String)
    (h : hasOccur (".jsonl").data path.data = false) :
    targetFile path language = path ∧
    targetFile "daily/2024-01-01.jsonl.bak" "Chinese" =
      "daily/2024-01-01_AI_enhanced_Chinese.jsonl.bak" := by
  refine ⟨?_, by decide⟩
  unfold targetFile
  exact pyReplace_of_not_occur path ".jsonl"
    ("_AI_enhanced_" ++ language ++ ".jsonl") h

theorem claim_C10_witness :
    hasOccur (".jsonl").data ("data/papers.txt").data = false ∧
    (targetFile "data/papers.txt" "English" = "data/papers.txt" ∧
      targetFile "daily/2024-01-01.jsonl.bak" "Chinese" =
        "daily/2024-01-01_AI_enhanced_Chinese.jsonl.bak") :=
  ⟨by decide, claim_C10 "data/papers.txt" "English" (by decide)⟩
